import Mathlib

/-!
Verification of the cache-consistency subsystem of the ChannelManager
property-listing service (Go sources: `cache/redis.go`, `models`,
`handlers`, `database/db.go`, event listener).

The Go code is shallowly embedded:
* the Redis key space is a function `Store : String → Option Val`
  (go-redis commands GET/SET/DEL/SCAN+DEL become pure store operations;
  a `down : Bool` flag injects backend failures: when the backend is
  down every redis command returns an error and leaves the store
  unchanged, which is how go-redis behaves on connectivity faults);
* `time.Time` values that the code only renders are carried as their
  renderings (`GoTime`); timestamps that the code only compares are
  carried as integer instants (nanoseconds);
* Go `float64`/`float32` fields are modelled as `Rat`; the examples in
  this file use values whose `%f` rendering involves no binary rounding;
* fallible Go calls return `Except Unit`; the database collaborator is
  passed in as an oracle function;
* `fmt.Sprintf` verbs are translated byte-for-byte, including Go's
  `%!t(*bool=...)` error rendering of a `*bool` formatted with `%t`
  (fmt does not dereference pointers for scalar verbs: it prints the
  pointer address), and MD5 is implemented in full (RFC 1321) so that
  concrete cache keys can be computed inside Lean.
-/

namespace ChannelManager

/-! ## Go `fmt` helpers -/

/-- Go `%d` of an integer: decimal, `-` sign for negatives.  Lean's
`toString : Int → String` produces exactly this rendering. -/
def goFmtD (n : Int) : String := toString n

/-- Lowercase hex digits, as used both by Go pointer rendering and by
hex-encoded MD5 digests. -/
def hexDigit (n : Nat) : Char :=
  match n with
  | 0 => '0' | 1 => '1' | 2 => '2' | 3 => '3'
  | 4 => '4' | 5 => '5' | 6 => '6' | 7 => '7'
  | 8 => '8' | 9 => '9' | 10 => 'a' | 11 => 'b'
  | 12 => 'c' | 13 => 'd' | 14 => 'e' | _ => 'f'

/-- Hex rendering of `n` (no leading zeros), fuelled to stay
structurally recursive; `natToHex 0 = "0"`. -/
def natToHexAux : Nat → Nat → List Char
  | 0, _ => []
  | _ + 1, 0 => []
  | fuel + 1, n => natToHexAux fuel (n / 16) ++ [hexDigit (n % 16)]

def natToHex (n : Nat) : String :=
  if n = 0 then "0" else String.mk (natToHexAux (n + 1) n)

/-- Go `fmt` rendering of a `*bool` under the `%t` verb.  `fmt` does not
dereference pointers for `%t`; it falls into `badVerb`, printing
`%!t(*bool=` followed by the `%v` rendering of the pointer itself —
`<nil>` for a nil pointer and `0x<address>` otherwise.  A non-nil Go
`*bool` is therefore modelled as its heap address paired with the
pointee. -/
def goFmtTPtrBool : Option (Nat × Bool) → String
  | none => "%!t(*bool=<nil>)"
  | some (addr, _) => "%!t(*bool=0x" ++ natToHex addr ++ ")"

/-- Go `%v` of an `[]int64` (`pq.Int64Array` has no `String` method, so
default slice formatting applies): elements space-separated inside
square brackets; both nil and empty render as `[]`. -/
def goFmtVInt64List (l : List Int) : String :=
  "[" ++ String.intercalate " " (l.map toString) ++ "]"

/-- Go `%f` (default precision 6) of a nonnegative rational: integer
part, `.`, six fractional digits.  `padSixDigits` left-pads the
fractional part with zeros. -/
def padSixDigits (n : Nat) : String :=
  let s := toString n
  String.mk (List.replicate (6 - s.length) '0') ++ s

/-- Fixed-point rendering of the nonnegative rational `n / d` with six
fractional digits: `n/d` is scaled by 10^6 and rounded to the nearest
integer (expressed in plain natural arithmetic so it evaluates in the
kernel). -/
def fmtFrac6 (n d : Nat) : String :=
  let scaled := (n * 2000000 + d) / (2 * d)
  toString (scaled / 1000000) ++ "." ++ padSixDigits (scaled % 1000000)

/-- Go `%f` of a float value, modelled on `Rat`: six fixed fractional
digits, `-` sign in front for negatives.  The examples in this file use
only rationals whose denominator divides 10^6, where no rounding occurs
and this agrees exactly with Go's `strconv` output. -/
def goFmtF (q : Rat) : String :=
  if q.num < 0 then "-" ++ fmtFrac6 (-q.num).toNat q.den
  else fmtFrac6 q.num.toNat q.den

/-! ## MD5 (RFC 1321)

`crypto/md5` as used by `generateSearchCacheKey`.  All arithmetic is on
`Nat` with explicit reduction mod 2^32; the message is a list of bytes
(the UTF-8 bytes of the formatted filter string, which is ASCII for
every input in this file). -/

def mask32 : Nat := 4294967295

def add32 (a b : Nat) : Nat := (a + b) % 4294967296

def not32 (a : Nat) : Nat := mask32 ^^^ a

def rotl32 (x s : Nat) : Nat :=
  ((x <<< s) % 4294967296) ||| (x >>> (32 - s))

/-- The 64 sine-derived round constants of MD5. -/
def md5K : List Nat :=
  [0xd76aa478, 0xe8c7b756, 0x242070db, 0xc1bdceee,
   0xf57c0faf, 0x4787c62a, 0xa8304613, 0xfd469501,
   0x698098d8, 0x8b44f7af, 0xffff5bb1, 0x895cd7be,
   0x6b901122, 0xfd987193, 0xa679438e, 0x49b40821,
   0xf61e2562, 0xc040b340, 0x265e5a51, 0xe9b6c7aa,
   0xd62f105d, 0x02441453, 0xd8a1e681, 0xe7d3fbc8,
   0x21e1cde6, 0xc33707d6, 0xf4d50d87, 0x455a14ed,
   0xa9e3e905, 0xfcefa3f8, 0x676f02d9, 0x8d2a4c8a,
   0xfffa3942, 0x8771f681, 0x6d9d6122, 0xfde5380c,
   0xa4beea44, 0x4bdecfa9, 0xf6bb4b60, 0xbebfbc70,
   0x289b7ec6, 0xeaa127fa, 0xd4ef3085, 0x04881d05,
   0xd9d4d039, 0xe6db99e5, 0x1fa27cf8, 0xc4ac5665,
   0xf4292244, 0x432aff97, 0xab9423a7, 0xfc93a039,
   0x655b59c3, 0x8f0ccc92, 0xffeff47d, 0x85845dd1,
   0x6fa87e4f, 0xfe2ce6e0, 0xa3014314, 0x4e0811a1,
   0xf7537e82, 0xbd3af235, 0x2ad7d2bb, 0xeb86d391]

/-- The per-round left-rotation amounts of MD5. -/
def md5S : List Nat :=
  [7, 12, 17, 22, 7, 12, 17, 22, 7, 12, 17, 22, 7, 12, 17, 22,
   5, 9, 14, 20, 5, 9, 14, 20, 5, 9, 14, 20, 5, 9, 14, 20,
   4, 11, 16, 23, 4, 11, 16, 23, 4, 11, 16, 23, 4, 11, 16, 23,
   6, 10, 15, 21, 6, 10, 15, 21, 6, 10, 15, 21, 6, 10, 15, 21]

/-- Little-endian byte rendering of `n`, `k` bytes. -/
def toLEBytes : Nat → Nat → List Nat
  | 0, _ => []
  | k + 1, n => (n % 256) :: toLEBytes k (n / 256)

/-- Group a 64-byte chunk into 16 little-endian 32-bit words. -/
def md5Words : List Nat → List Nat
  | b0 :: b1 :: b2 :: b3 :: rest =>
      (b0 + 256 * b1 + 65536 * b2 + 16777216 * b3) :: md5Words rest
  | _ => []

/-- RFC 1321 padding: a 0x80 byte, zeros to 56 mod 64, then the bit
length as 8 little-endian bytes. -/
def md5Pad (msg : List Nat) : List Nat :=
  let len := msg.length
  let padLen := (64 + 56 - (len + 1) % 64) % 64
  msg ++ 0x80 :: List.replicate padLen 0 ++ toLEBytes 8 ((len * 8) % 18446744073709551616)

/-- Split the padded message into 64-byte chunks (fuelled so the
recursion is structural and kernel-reducible). -/
def md5ChunksAux : Nat → List Nat → List (List Nat)
  | 0, _ => []
  | _ + 1, [] => []
  | fuel + 1, l => l.take 64 :: md5ChunksAux fuel (l.drop 64)

def md5Chunks (l : List Nat) : List (List Nat) := md5ChunksAux l.length l

/-- One MD5 round: mixes round `i` into the register file `(a,b,c,d)`
using the chunk's words `m`. -/
def md5Step (m : List Nat) (st : Nat × Nat × Nat × Nat) (i : Nat) :
    Nat × Nat × Nat × Nat :=
  let (a, b, c, d) := st
  let f :=
    if i < 16 then (b &&& c) ||| (not32 b &&& d)
    else if i < 32 then (d &&& b) ||| (not32 d &&& c)
    else if i < 48 then b ^^^ c ^^^ d
    else c ^^^ (b ||| not32 d)
  let g :=
    if i < 16 then i
    else if i < 32 then (5 * i + 1) % 16
    else if i < 48 then (3 * i + 5) % 16
    else (7 * i) % 16
  let tmp := add32 (add32 (add32 a f) (md5K.getD i 0)) (m.getD g 0)
  (d, add32 b (rotl32 tmp (md5S.getD i 0)), b, c)

/-- Process one 64-byte chunk, adding the mixed registers back into the
running state. -/
def md5Chunk (st : Nat × Nat × Nat × Nat) (chunk : List Nat) :
    Nat × Nat × Nat × Nat :=
  let m := md5Words chunk
  let (a, b, c, d) := (List.range 64).foldl (md5Step m) st
  let (a0, b0, c0, d0) := st
  (add32 a0 a, add32 b0 b, add32 c0 c, add32 d0 d)

/-- MD5 digest of a byte list: 16 bytes. -/
def md5Bytes (msg : List Nat) : List Nat :=
  let (a, b, c, d) :=
    (md5Chunks (md5Pad msg)).foldl md5Chunk
      (0x67452301, 0xefcdab89, 0x98badcfe, 0x10325476)
  toLEBytes 4 a ++ toLEBytes 4 b ++ toLEBytes 4 c ++ toLEBytes 4 d

/-- `hex.EncodeToString` of a byte list: two lowercase hex digits per
byte. -/
def hexEncode (bytes : List Nat) : String :=
  String.mk (bytes.foldr (fun b acc => hexDigit (b / 16) :: hexDigit (b % 16) :: acc) [])

/-- MD5 of a string's bytes, hex encoded — `hash.Write([]byte(s))`
followed by `hex.EncodeToString(hash.Sum(nil))`.  Strings fed to it by
this embedding are ASCII, where code points and UTF-8 bytes agree. -/
def md5Hex (s : String) : String :=
  hexEncode (md5Bytes (s.data.map Char.toNat))

/-! ## Redis glob matching

`deleteByPattern` enumerates keys with `SCAN pattern` and deletes the
matches.  Redis patterns use `*` (any span) and `?` (any one
character); the patterns this service generates contain only literal
characters and `*` (character classes and escapes are never used), so
the matcher below covers exactly the behaviour the code relies on.
The recursion is structural on the pattern: `*` tries every suffix of
the subject. -/

def strSuffixes : List Char → List (List Char)
  | [] => [[]]
  | c :: cs => (c :: cs) :: strSuffixes cs

def globMatch : List Char → List Char → Bool
  | [], s => s.isEmpty
  | '*' :: ps, s => (strSuffixes s).any fun t => globMatch ps t
  | '?' :: ps, s =>
      match s with
      | [] => false
      | _ :: cs => globMatch ps cs
  | p :: ps, s =>
      match s with
      | [] => false
      | c :: cs => p == c && globMatch ps cs

def globMatchStr (pat s : String) : Bool := globMatch pat.data s.data

/-! ## Data model (`models` package)

Go `uint` ids are `Nat`, Go `int` is `Int`, floats are `Rat`.
`time.Time` fields that the code only ever renders are `GoTime`
(carrying the two renderings the code observes); timestamps that the
code only stores and compares are `Int` nanosecond instants.  The gorm
bookkeeping fields (`DeletedAt`) and the unloaded relation slices
(`Availabilities`, `Pricing` on `Property`), which no embedded
operation reads, are omitted. -/

/-- A `time.Time` value as observed by the embedded code: `repr` is its
`String()` rendering (used by `generateSearchCacheKey`), `dateRepr` its
`Format("2006-01-02")` rendering (used for pricing-range lookups).
Both renderings are pure functions of the time value in Go, so carrying
them as data preserves determinism. -/
structure GoTime where
  repr : String
  dateRepr : String
deriving DecidableEq

structure Amenity where
  ID : Nat
  Name : String
  Category : String
  Icon : String
  CreatedAt : Int
  UpdatedAt : Int
deriving DecidableEq

structure Condition where
  ID : Nat
  Name : String
  /-- the Go field `Type` (a reserved word in Lean) -/
  Type' : String
  CreatedAt : Int
  UpdatedAt : Int
deriving DecidableEq

structure Pricing where
  ID : Nat
  PropertyID : Nat
  Date : Int
  BasePrice : Rat
  Taxes : Rat
  Fees : Rat
  Discount : Rat
  TotalPrice : Rat
  CreatedAt : Int
  UpdatedAt : Int
deriving DecidableEq

structure Availability where
  ID : Nat
  PropertyID : Nat
  Date : Int
  Available : Bool
  MinStay : Int
  MaxGuests : Int
  CreatedAt : Int
  UpdatedAt : Int
deriving DecidableEq

structure Property where
  ID : Nat
  ChannelID : String
  Name : String
  Description : String
  Location : String
  City : String
  State : String
  Country : String
  Latitude : Rat
  Longitude : Rat
  MaxGuests : Int
  Bedrooms : Int
  Bathrooms : Int
  Rating : Rat
  ReviewCount : Int
  CreatedAt : Int
  UpdatedAt : Int
  Amenities : List Amenity
  Conditions : List Condition
deriving DecidableEq

structure SearchFilter where
  Location : String
  City : String
  CheckinDate : GoTime
  CheckoutDate : GoTime
  NumberOfGuests : Int
  /-- Go `*bool`: heap address paired with the pointee.  The address is
  part of the model because `generateSearchCacheKey` formats this field
  with `%t`, which renders the pointer, not the pointee. -/
  PetFriendly : Option (Nat × Bool)
  SmokingFriendly : Option (Nat × Bool)
  AmenityIDs : List Int
  ConditionIDs : List Int
  MinRating : Rat
  MaxPrice : Rat
  MinPrice : Rat
  /-- Go `*float64`; only ever dereferenced, so the address is
  irrelevant and omitted. -/
  Latitude : Option Rat
  Longitude : Option Rat
  RadiusKm : Rat
  SortBy : String
  Page : Int
  Limit : Int
deriving DecidableEq

structure SearchResult where
  ID : Nat
  Name : String
  Description : String
  Location : String
  City : String
  State : String
  Country : String
  Rating : Rat
  ReviewCount : Int
  MaxGuests : Int
  Bedrooms : Int
  Bathrooms : Int
  PricePerNight : Rat
  TotalPrice : Rat
  Amenities : List String
  Conditions : List String
  Distance : Option Rat
  Available : Bool
deriving DecidableEq

structure SearchResultsCache where
  Results : List SearchResult
  Total : Int
  Page : Int
  Limit : Int
  UpdatedAt : Int
  ExpiresAt : Int
deriving DecidableEq

/-- The payload snapshot carried by a change event (`datatypes.JSON`),
as the event handlers deserialize it: an availability row, a pricing
row, or bytes that do not unmarshal into the expected shape. -/
inductive EventData where
  | availability (a : Availability)
  | pricing (p : Pricing)
  | malformed
deriving DecidableEq

structure Event where
  ID : Nat
  EventType : String
  TableName : String
  RecordID : Nat
  Data : EventData
  CreatedAt : Int
  Processed : Bool
deriving DecidableEq

/-! ## Cache store (`cache` package)

The Redis key space as a map from key to stored payload.  Stored
payloads are tagged with the type they were marshalled from; reading a
payload back into a different type (or a `corrupt` payload into any
type) is a deserialization failure.  A `down : Bool` flag on every
client call injects backend unavailability: the call returns an error
and the store is untouched. -/

inductive Val where
  | corrupt
  | property (p : Property)
  | searchResults (v : SearchResultsCache)
  | amenities (l : List Amenity)
  | conditions (l : List Condition)
deriving DecidableEq

def Store := String → Option Val

def Store.empty : Store := fun _ => none

def setKey (key : String) (v : Val) (s : Store) : Store :=
  fun k => if k = key then some v else s k

def delKey (key : String) (s : Store) : Store :=
  fun k => if k = key then none else s k

/-- `deleteByPattern`: SCAN the key space for `pattern` matches and DEL
the matching keys (tolerating zero matches). -/
def delPattern (pattern : String) (s : Store) : Store :=
  fun k => if globMatchStr pattern k then none else s k

/-- go-redis `Set`'s expiration argument: `expiration > 0` attaches an
expiry (`EX`/`PX`), `expiration == KeepTTL (-1)` sends `KEEPTTL`, and
any other `expiration <= 0` sends a plain `SET` with no expiration.
No value is ever rejected. -/
inductive SetTTLArg where
  | withExpiry (ttl : Int)
  | keepttl
  | noExpiry
deriving DecidableEq

def keepTTL : Int := -1

def goRedisSetTTLArg (ttl : Int) : SetTTLArg :=
  if ttl > 0 then .withExpiry ttl
  else if ttl = keepTTL then .keepttl
  else .noExpiry

/-- `rc.client.Set`: unconditional overwrite; the ttl argument only
selects the expiration clause of the command (the logical expiry check
of search results is explicit in the payload, and backend eviction is
outside this model). -/
def redisSet (down : Bool) (key : String) (v : Val) (ttl : Int) (s : Store) :
    Except Unit Store :=
  let _ := goRedisSetTTLArg ttl
  if down then .error () else .ok (setKey key v s)

def redisDel (down : Bool) (key : String) (s : Store) : Except Unit Store :=
  if down then .error () else .ok (delKey key s)

def redisDelPattern (down : Bool) (pattern : String) (s : Store) :
    Except Unit Store :=
  if down then .error () else .ok (delPattern pattern s)

/-- Threads a fallible redis call whose error the Go code only logs:
on error the store is unchanged. -/
def orKeep (r : Except Unit Store) (s : Store) : Store :=
  match r with
  | .ok s' => s'
  | .error _ => s

/-! ## RedisClient methods (`cache/redis.go`) -/

/-- `GetSearchResultsCache`: GET the key; `redis.Nil` is a miss
(`nil, nil`); an unmarshal failure is returned as an error (the stale
key is NOT deleted on that path); a payload whose `ExpiresAt` lies
before the current wall-clock time is deleted eagerly and reported as
a miss. -/
def GetSearchResultsCache (down : Bool) (s : Store) (now : Int)
    (cacheKey : String) : Except Unit (Option SearchResultsCache) × Store :=
  if down then (.error (), s) else
  match s cacheKey with
  | none => (.ok none, s)
  | some (.searchResults results) =>
      if results.ExpiresAt < now then (.ok none, delKey cacheKey s)
      else (.ok (some results), s)
  | some _ => (.error (), s)

/-- `SetSearchResultsCache`: stamp `UpdatedAt`/`ExpiresAt` from the
wall clock and the ttl, marshal, and SET with the same ttl.  No ttl
validation is performed. -/
def SetSearchResultsCache (down : Bool) (cacheKey : String)
    (results : SearchResultsCache) (ttl : Int) (now : Int) (s : Store) :
    Except Unit Store :=
  let results := { results with UpdatedAt := now, ExpiresAt := now + ttl }
  redisSet down cacheKey (.searchResults results) ttl s

/-- `GetPropertyCache`: GET `property:{id}`; `redis.Nil` is a miss; an
unmarshal failure is returned as an error without touching the key. -/
def GetPropertyCache (down : Bool) (s : Store) (propertyID : Nat) :
    Except Unit (Option Property) :=
  if down then .error () else
  match s ("property:" ++ toString propertyID) with
  | none => .ok none
  | some (.property p) => .ok (some p)
  | some _ => .error ()

/-- `SetPropertyCache`: marshal and SET `property:{id}` with the given
ttl.  No ttl validation is performed. -/
def SetPropertyCache (down : Bool) (propertyID : Nat) (p : Property)
    (ttl : Int) (s : Store) : Except Unit Store :=
  redisSet down ("property:" ++ toString propertyID) (.property p) ttl s

/-- `InvalidatePropertyCache`: DEL `property:{id}`. -/
def InvalidatePropertyCache (down : Bool) (propertyID : Nat) (s : Store) :
    Except Unit Store :=
  redisDel down ("property:" ++ toString propertyID) s

/-- `InvalidateAvailabilityCache`: delete every key matching
`availability:{id}:*`. -/
def InvalidateAvailabilityCache (down : Bool) (propertyID : Nat) (s : Store) :
    Except Unit Store :=
  redisDelPattern down ("availability:" ++ toString propertyID ++ ":*") s

/-- `InvalidateSearchCache`: delete the keys matching each of the three
patterns in order, returning at the first error. -/
def InvalidateSearchCache (down : Bool) (location city : String) (s : Store) :
    Except Unit Store :=
  match redisDelPattern down ("search:location:" ++ location ++ ":*") s with
  | .error e => .error e
  | .ok s =>
    match redisDelPattern down ("search:city:" ++ city ++ ":*") s with
    | .error e => .error e
    | .ok s => redisDelPattern down "search:*" s

/-- `InvalidateAmenitiesCache`: deleteByPattern on `amenities:all` then
`amenities:*`, returning at the first error. -/
def InvalidateAmenitiesCache (down : Bool) (s : Store) : Except Unit Store :=
  match redisDelPattern down "amenities:all" s with
  | .error e => .error e
  | .ok s => redisDelPattern down "amenities:*" s

/-- `InvalidateConditionsCache`: deleteByPattern on `conditions:all`
then `conditions:*`, returning at the first error. -/
def InvalidateConditionsCache (down : Bool) (s : Store) : Except Unit Store :=
  match redisDelPattern down "conditions:all" s with
  | .error e => .error e
  | .ok s => redisDelPattern down "conditions:*" s

/-! ## Key codec (`handlers.generateSearchCacheKey`) -/

/-- The canonical-serialization string of
`fmt.Sprintf("%s:%s:%s:%s:%d:%t:%t:%v:%v:%f:%f:%f:%f:%s:%d:%d", ...)`
over the filter's fields, in source order (note: `Latitude` and
`Longitude` are not among the formatted fields, and `PetFriendly` /
`SmokingFriendly` are `*bool` values hit by `%t`). -/
def searchHashInput (filter : SearchFilter) : String :=
  filter.Location ++ (":" ++
  (filter.City ++ (":" ++
  (filter.CheckinDate.repr ++ (":" ++
  (filter.CheckoutDate.repr ++ (":" ++
  (goFmtD filter.NumberOfGuests ++ (":" ++
  (goFmtTPtrBool filter.PetFriendly ++ (":" ++
  (goFmtTPtrBool filter.SmokingFriendly ++ (":" ++
  (goFmtVInt64List filter.AmenityIDs ++ (":" ++
  (goFmtVInt64List filter.ConditionIDs ++ (":" ++
  (goFmtF filter.MinRating ++ (":" ++
  (goFmtF filter.MaxPrice ++ (":" ++
  (goFmtF filter.MinPrice ++ (":" ++
  (goFmtF filter.RadiusKm ++ (":" ++
  (filter.SortBy ++ (":" ++
  (goFmtD filter.Page ++ (":" ++
  goFmtD filter.Limit)))))))))))))))))))))))))))))

/-- `generateSearchCacheKey`: `search:` followed by the hex MD5 digest
of the serialized filter. -/
def generateSearchCacheKey (filter : SearchFilter) : String :=
  "search:" ++ md5Hex (searchHashInput filter)

/-! ## Handlers (`handlers` package) -/

/-- The pagination validation at the top of `SearchProperties`:
`Page < 1` becomes 1; `Limit < 1 || Limit > 100` becomes 20. -/
def normalizePaging (filter : SearchFilter) : SearchFilter :=
  let filter := if filter.Page < 1 then { filter with Page := 1 } else filter
  if filter.Limit < 1 || filter.Limit > 100 then { filter with Limit := 20 }
  else filter

/-- `calculateDistance` (the code's approximate haversine), verbatim on
`Rat`. -/
def calculateDistance (lat1 lon1 lat2 lon2 : Rat) : Rat :=
  let R : Rat := 6371
  let pi : Rat := 314159 / 100000
  let dlat := (lat2 - lat1) * pi / 180
  let dlon := (lon2 - lon1) * pi / 180
  let a := (dlat / 2) * (dlat / 2) +
    (dlon / 2) * (dlon / 2) * ((pi / 180) * lat1) * ((pi / 180) * lat1)
  let c := 2 * pi / 180 * a
  R * c

/-- 5 minutes in nanoseconds (`5*time.Minute`). -/
def fiveMinutes : Int := 300000000000

/-- 1 hour in nanoseconds (`1*time.Hour`). -/
def oneHour : Int := 3600000000000

/-- Errors from `propertyRepo.GetPropertyByID`. -/
inductive DBErr where
  | notFound
  | other
deriving DecidableEq

/-- The database collaborator, as the oracle functions the handlers and
the relay call into. -/
structure DataStore where
  /-- `propertyRepo.SearchProperties` -/
  search : SearchFilter → Except Unit (List Property × Int)
  /-- `propertyRepo.GetPropertyByID`; `none` inside `ok` is unused —
  a missing row is the `notFound` error. -/
  getPropertyByID : Nat → Except DBErr Property
  /-- `pricingRepo.GetPricingForDateRange propertyID startDate endDate` -/
  pricingForDateRange : Nat → String → String → Except Unit (List Pricing)

/-- `convertPropertiesToSearchResults`: per property, look up pricing
for the filter's date range (skipping the property if that fails), sum
total price, average it when the range is nonempty, collect amenity
and condition names, and attach a distance when both request
coordinates are present. -/
def convertPropertiesToSearchResults (store : DataStore)
    (properties : List Property) (filter : SearchFilter) : List SearchResult :=
  properties.foldl (fun results prop =>
    match store.pricingForDateRange prop.ID filter.CheckinDate.dateRepr
        filter.CheckoutDate.dateRepr with
    | .error _ => results
    | .ok pricing =>
      let totalPrice := pricing.foldl (fun t p => t + p.TotalPrice) (0 : Rat)
      let avgPrice : Rat :=
        if pricing.length > 0 then totalPrice / (pricing.length : Rat) else 0
      let amenityNames := prop.Amenities.map (·.Name)
      let conditionNames := prop.Conditions.map (·.Name)
      let distance :=
        match filter.Latitude, filter.Longitude with
        | some la, some lo => some (calculateDistance la lo prop.Latitude prop.Longitude)
        | _, _ => none
      let result : SearchResult :=
        { ID := prop.ID, Name := prop.Name,
          Description := prop.Description, Location := prop.Location,
          City := prop.City, State := prop.State, Country := prop.Country,
          Rating := prop.Rating, ReviewCount := prop.ReviewCount,
          MaxGuests := prop.MaxGuests, Bedrooms := prop.Bedrooms,
          Bathrooms := prop.Bathrooms, PricePerNight := avgPrice,
          TotalPrice := totalPrice, Amenities := amenityNames,
          Conditions := conditionNames, Distance := distance,
          Available := true }
      results ++ [result]) []

/-- The rendered outcome of the search endpoint. -/
inductive SearchResponse where
  | okCached (results : List SearchResult) (total : Int) (page limit : Int)
      (cacheAgeNs : Int)
  | okFresh (results : List SearchResult) (total : Int) (page limit : Int)
  | serverError
deriving DecidableEq

/-- `SearchProperties` (after request binding): validate pagination,
compute the cache key, try the cache (an error from the cache is
logged and treated like a miss), serve a hit directly; otherwise query
the store (a store failure is a 500), convert, cache the result with a
5-minute ttl (a failed set is logged and ignored) and serve it. -/
def SearchProperties (down : Bool) (s : Store) (now : Int)
    (store : DataStore) (filter0 : SearchFilter) : SearchResponse × Store :=
  let filter := normalizePaging filter0
  let cacheKey := generateSearchCacheKey filter
  let (cachedResults, s) :=
    match GetSearchResultsCache down s now cacheKey with
    | (.error _, s) => (none, s)
    | (.ok r, s) => (r, s)
  match cachedResults with
  | some cached =>
      (.okCached cached.Results cached.Total cached.Page cached.Limit
        (now - cached.UpdatedAt), s)
  | none =>
    match store.search filter with
    | .error _ => (.serverError, s)
    | .ok (properties, total) =>
      let results := convertPropertiesToSearchResults store properties filter
      let cacheResults : SearchResultsCache :=
        { Results := results, Total := total, Page := filter.Page,
          Limit := filter.Limit, UpdatedAt := 0, ExpiresAt := 0 }
      let s := orKeep (SetSearchResultsCache down cacheKey cacheResults
        fiveMinutes now s) s
      (.okFresh results total filter.Page filter.Limit, s)

/-- The rendered outcome of the single-property endpoint. -/
inductive GetPropResponse where
  | okCached (p : Property)
  | okFresh (p : Property)
  | notFound
  | serverError
deriving DecidableEq

/-- `GetProperty` (after id parsing): try the cache (an error is logged
and treated like a miss), serve a hit; otherwise query the store
(`ErrRecordNotFound` is a 404, any other failure a 500), cache the row
for an hour (a failed set is logged and ignored), and serve it. -/
def GetProperty (down : Bool) (s : Store) (store : DataStore)
    (propertyID : Nat) : GetPropResponse × Store :=
  let cachedProperty :=
    match GetPropertyCache down s propertyID with
    | .error _ => none
    | .ok r => r
  match cachedProperty with
  | some p => (.okCached p, s)
  | none =>
    match store.getPropertyByID propertyID with
    | .error .notFound => (.notFound, s)
    | .error .other => (.serverError, s)
    | .ok property =>
      let s := orKeep (SetPropertyCache down propertyID property oneHour s) s
      (.okFresh property, s)

/-! ## Event repository (`database/db.go`) -/

/-- The `events` table, in its enumeration order. -/
abbrev EventTable := List Event

/-- `GetUnprocessedEvents`: `WHERE processed = false LIMIT n` — note
that the query carries no `ORDER BY` clause, so the result order is
whatever order the table enumerates its rows in. -/
def GetUnprocessedEvents (limit : Nat) (db : EventTable) : List Event :=
  (db.filter fun e => e.Processed = false).take limit

/-- `MarkEventAsProcessed`: `UPDATE events SET processed = true WHERE
id = ?`. -/
def MarkEventAsProcessed (eventID : Nat) (db : EventTable) : EventTable :=
  db.map fun e => if e.ID = eventID then { e with Processed := true } else e

/-! ## Change-event relay (`handlers` event listener) -/

/-- `handlePropertyEvent`: invalidate the property snapshot, the whole
search namespace, and the property's availability keys; each failure
is logged and the next invalidation still runs. -/
def handlePropertyEvent (down : Bool) (event : Event) (s : Store) : Store :=
  let s := orKeep (InvalidatePropertyCache down event.RecordID s) s
  let s := orKeep (InvalidateSearchCache down "" "" s) s
  orKeep (InvalidateAvailabilityCache down event.RecordID s) s

/-- `handleAvailabilityEvent`: the owning property id comes from the
payload snapshot; a payload that fails to unmarshal aborts the
handler. -/
def handleAvailabilityEvent (down : Bool) (event : Event) (s : Store) : Store :=
  match event.Data with
  | .availability availability =>
      let s := orKeep (InvalidateAvailabilityCache down availability.PropertyID s) s
      orKeep (InvalidateSearchCache down "" "" s) s
  | _ => s

/-- `handlePricingEvent`: the owning property id comes from the payload
snapshot; a payload that fails to unmarshal aborts the handler. -/
def handlePricingEvent (down : Bool) (event : Event) (s : Store) : Store :=
  match event.Data with
  | .pricing pricing =>
      let s := orKeep (InvalidateSearchCache down "" "" s) s
      orKeep (InvalidatePropertyCache down pricing.PropertyID s) s
  | _ => s

def handleAmenityEvent (down : Bool) (_event : Event) (s : Store) : Store :=
  let s := orKeep (InvalidateAmenitiesCache down s) s
  orKeep (InvalidateSearchCache down "" "" s) s

def handleConditionEvent (down : Bool) (_event : Event) (s : Store) : Store :=
  let s := orKeep (InvalidateConditionsCache down s) s
  orKeep (InvalidateSearchCache down "" "" s) s

def handlePropertyRelationEvent (down : Bool) (event : Event) (s : Store) : Store :=
  let s := orKeep (InvalidateSearchCache down "" "" s) s
  orKeep (InvalidatePropertyCache down event.RecordID s) s

/-- `handleEvent`: dispatch on the subject table; an unknown table is
only logged. -/
def handleEvent (down : Bool) (event : Event) (s : Store) : Store :=
  if event.TableName = "properties" then handlePropertyEvent down event s
  else if event.TableName = "availabilities" then handleAvailabilityEvent down event s
  else if event.TableName = "pricing" then handlePricingEvent down event s
  else if event.TableName = "amenities" then handleAmenityEvent down event s
  else if event.TableName = "conditions" then handleConditionEvent down event s
  else if event.TableName = "property_amenities" ∨ event.TableName = "property_conditions"
    then handlePropertyRelationEvent down event s
  else s

/-- One relay cycle (`processUnprocessedEvents`): fetch up to 100
unprocessed events; an empty batch is a no-op; otherwise, for each
event in fetch order, run its handler and then mark it processed —
unconditionally: the handlers swallow every invalidation error, so the
mark is not guarded by invalidation success.  (The event-table queries
themselves are modelled as reliable; in Go a failed fetch aborts the
cycle and a failed mark is only logged, neither of which interacts
with the properties proved here.) -/
def processUnprocessedEvents (down : Bool) (db : EventTable) (s : Store) :
    EventTable × Store :=
  let events := GetUnprocessedEvents 100 db
  if events.isEmpty then (db, s)
  else
    events.foldl (fun acc event =>
      let s := handleEvent down event acc.2
      (MarkEventAsProcessed event.ID acc.1, s)) (db, s)

/-! ## Concrete fixtures used by witnesses and counterexamples -/

/-- The zero `time.Time`, with its Go `String()` and
`Format("2006-01-02")` renderings. -/
def zeroTime : GoTime :=
  { repr := "0001-01-01 00:00:00 +0000 UTC", dateRepr := "0001-01-01" }

/-- A search filter with every field at its zero value (and valid
pagination). -/
def emptyFilter : SearchFilter :=
  { Location := "", City := "", CheckinDate := zeroTime,
    CheckoutDate := zeroTime, NumberOfGuests := 0, PetFriendly := none,
    SmokingFriendly := none, AmenityIDs := [], ConditionIDs := [],
    MinRating := 0, MaxPrice := 0, MinPrice := 0, Latitude := none,
    Longitude := none, RadiusKm := 0, SortBy := "", Page := 1,
    Limit := 20 }

def sampleProperty : Property :=
  { ID := 42, ChannelID := "", Name := "Sea View", Description := "",
    Location := "Goa", City := "Panaji", State := "", Country := "",
    Latitude := 0, Longitude := 0, MaxGuests := 2, Bedrooms := 1,
    Bathrooms := 1, Rating := 4, ReviewCount := 10, CreatedAt := 0,
    UpdatedAt := 0, Amenities := [], Conditions := [] }

/-- An unprocessed change event on the `properties` table. -/
def sampleEvent : Event :=
  { ID := 1, EventType := "UPDATE", TableName := "properties",
    RecordID := 42, Data := .malformed, CreatedAt := 0,
    Processed := false }

/-- An unprocessed property event with the given sequence id. -/
def seqEvent (id : Nat) : Event :=
  { sampleEvent with ID := id, RecordID := id }

/-! ## C2 — batch limit and fetch order -/

/-- C2, as stated, is false on the code: `GetUnprocessedEvents` carries
no `ORDER BY` clause, so a table whose enumeration order is not
ascending in `id` is returned as-is.  Here a table holding event 2
before event 1 (both unprocessed) is fetched in that same order, which
is not ascending by sequence id. -/
theorem fetch_returns_table_order_not_sequence_order :
    GetUnprocessedEvents 100 [seqEvent 2, seqEvent 1] = [seqEvent 2, seqEvent 1] ∧
    ¬ List.Pairwise (fun a b => a.ID ≤ b.ID)
        (GetUnprocessedEvents 100 [seqEvent 2, seqEvent 1]) := by
  constructor
  · rfl
  · decide

/-- C2 amended: every relay fetch returns at most `limit` events, each
of them unprocessed, in the table's own enumeration order (a sublist of
the table) — no `sequence_id` ordering is imposed by the query. -/
theorem fetch_at_most_limit_unprocessed_in_table_order
    (limit : Nat) (db : EventTable) :
    (GetUnprocessedEvents limit db).length ≤ limit ∧
    List.Sublist (GetUnprocessedEvents limit db) db ∧
    ∀ e ∈ GetUnprocessedEvents limit db, e.Processed = false := by
  refine ⟨List.length_take_le _ _, ?_, ?_⟩
  · exact (List.take_sublist _ _).trans (List.filter_sublist _)
  · intro e he
    have := List.of_mem_filter (List.mem_of_mem_take he)
    simpa using this

theorem fetch_at_most_limit_unprocessed_in_table_order_witness :
    (GetUnprocessedEvents 100 [seqEvent 2, seqEvent 1]).length ≤ 100 ∧
    (seqEvent 2).Processed = false :=
  ⟨(fetch_at_most_limit_unprocessed_in_table_order 100 [seqEvent 2, seqEvent 1]).1,
   (fetch_at_most_limit_unprocessed_in_table_order 100 [seqEvent 2, seqEvent 1]).2.2
     (seqEvent 2) (by decide)⟩

/-! ## C5 — explicit expiry check on search-result reads -/

/-- C5: a cached search-result entry read strictly after its
`ExpiresAt` instant is reported as a miss and its key is deleted
eagerly, independent of backend eviction. -/
theorem expired_search_entry_is_miss_and_deleted
    (s : Store) (now : Int) (cacheKey : String) (v : SearchResultsCache)
    (hs : s cacheKey = some (.searchResults v)) (hexp : v.ExpiresAt < now) :
    GetSearchResultsCache false s now cacheKey = (.ok none, delKey cacheKey s) ∧
    (GetSearchResultsCache false s now cacheKey).2 cacheKey = none := by
  have h1 : GetSearchResultsCache false s now cacheKey = (.ok none, delKey cacheKey s) := by
    simp [GetSearchResultsCache, hs, hexp]
  refine ⟨h1, ?_⟩
  rw [h1]
  simp [delKey]

def expiredEntry : SearchResultsCache :=
  { Results := [], Total := 0, Page := 1, Limit := 20, UpdatedAt := 0,
    ExpiresAt := 5 }

def storeWithExpired : Store :=
  setKey "search:abc" (.searchResults expiredEntry) Store.empty

theorem expired_search_entry_is_miss_and_deleted_witness :
    GetSearchResultsCache false storeWithExpired 10 "search:abc" =
      (.ok none, delKey "search:abc" storeWithExpired) ∧
    (GetSearchResultsCache false storeWithExpired 10 "search:abc").2 "search:abc" = none :=
  expired_search_entry_is_miss_and_deleted storeWithExpired 10 "search:abc"
    expiredEntry (by decide) (by decide)

/-! ## C6 — no ttl validation on cache sets -/

/-- C6, as stated, is false on the code: no `Set*` operation validates
its ttl.  `SetPropertyCache` with `ttl = 0` succeeds and stores the
value (go-redis sends a plain `SET` with no expiration for a
nonpositive ttl) instead of rejecting the call. -/
theorem zero_ttl_set_succeeds_and_stores :
    SetPropertyCache false 7 sampleProperty 0 Store.empty =
      .ok (setKey "property:7" (.property sampleProperty) Store.empty) ∧
    (setKey "property:7" (.property sampleProperty) Store.empty) "property:7" =
      some (.property sampleProperty) := by
  constructor
  · rfl
  · simp [setKey]

/-- C6 amended: `ttl <= 0` is not rejected — `SetPropertyCache` and
`SetSearchResultsCache` store unconditionally and report success, and
for any nonpositive ttl other than go-redis's `KeepTTL (-1)` the SET
command carries no expiration clause at all. -/
theorem set_accepts_nonpositive_ttl
    (propertyID : Nat) (p : Property) (cacheKey : String)
    (r : SearchResultsCache) (ttl now : Int) (s : Store) (h : ttl ≤ 0) :
    SetPropertyCache false propertyID p ttl s =
      .ok (setKey ("property:" ++ toString propertyID) (.property p) s) ∧
    SetSearchResultsCache false cacheKey r ttl now s =
      .ok (setKey cacheKey
        (.searchResults { r with UpdatedAt := now, ExpiresAt := now + ttl }) s) ∧
    (ttl ≠ keepTTL → goRedisSetTTLArg ttl = .noExpiry) := by
  refine ⟨rfl, rfl, fun hk => ?_⟩
  have h1 : ¬ ttl > 0 := by omega
  simp [goRedisSetTTLArg, h1, hk]

theorem set_accepts_nonpositive_ttl_witness :
    SetPropertyCache false 7 sampleProperty 0 Store.empty =
      .ok (setKey "property:7" (.property sampleProperty) Store.empty) ∧
    goRedisSetTTLArg 0 = .noExpiry :=
  ⟨(set_accepts_nonpositive_ttl 7 sampleProperty "search:abc" expiredEntry 0 0
      Store.empty (by decide)).1,
   (set_accepts_nonpositive_ttl 7 sampleProperty "search:abc" expiredEntry 0 0
      Store.empty (by decide)).2.2 (by decide)⟩

/-! ## C9 — a property event invalidates snapshot, availability and the
whole search namespace -/

/-- Event handlers only ever delete cache keys, so a key that is
already absent stays absent through any handler. -/
theorem handleEvent_none_mono (down : Bool) (e : Event) (s : Store)
    (k : String) (h : s k = none) : handleEvent down e s k = none := by
  have hD : ∀ (key : String) (t : Store), t k = none →
      orKeep (redisDel down key t) t k = none := by
    intro key t ht
    cases down <;> simp [redisDel, orKeep, delKey, ht]
  have hP : ∀ (pat : String) (t : Store), t k = none →
      orKeep (redisDelPattern down pat t) t k = none := by
    intro pat t ht
    cases down <;> simp [redisDelPattern, orKeep, delPattern, ht]
  have hS : ∀ (l c : String) (t : Store), t k = none →
      orKeep (InvalidateSearchCache down l c t) t k = none := by
    intro l c t ht
    cases down <;>
      simp [InvalidateSearchCache, redisDelPattern, orKeep, delPattern, ht]
  have hA : ∀ t : Store, t k = none →
      orKeep (InvalidateAmenitiesCache down t) t k = none := by
    intro t ht
    cases down <;>
      simp [InvalidateAmenitiesCache, redisDelPattern, orKeep, delPattern, ht]
  have hC : ∀ t : Store, t k = none →
      orKeep (InvalidateConditionsCache down t) t k = none := by
    intro t ht
    cases down <;>
      simp [InvalidateConditionsCache, redisDelPattern, orKeep, delPattern, ht]
  simp only [handleEvent]
  split_ifs
  · exact hP _ _ (hS _ _ _ (hD _ _ h))
  · simp only [handleAvailabilityEvent]
    cases e.Data with
    | availability a => exact hS _ _ _ (hP _ _ h)
    | pricing p => exact h
    | malformed => exact h
  · simp only [handlePricingEvent]
    cases e.Data with
    | availability a => exact h
    | pricing p => exact hD _ _ (hS _ _ _ h)
    | malformed => exact h
  · simp only [handleAmenityEvent]
    exact hS _ _ _ (hA _ h)
  · simp only [handleConditionEvent]
    exact hS _ _ _ (hC _ h)
  · simp only [handlePropertyRelationEvent]
    exact hD _ _ (hS _ _ _ h)
  · exact h

theorem foldl_handle_none_mono (down : Bool) (evs : List Event) :
    ∀ (s : Store) (k : String), s k = none →
      (evs.foldl (fun t ev => handleEvent down ev t) s) k = none := by
  induction evs with
  | nil => exact fun _ _ h => h
  | cons e0 evs ih =>
    intro s k h
    exact ih _ _ (handleEvent_none_mono down e0 s k h)

/-- If some fetched event's handler deletes key `k` from every store,
then key `k` is absent after the whole cycle's fold. -/
theorem foldl_handle_hits (e : Event) (k : String)
    (H : ∀ t : Store, handleEvent false e t k = none) :
    ∀ (evs : List Event) (s : Store), e ∈ evs →
      (evs.foldl (fun t ev => handleEvent false ev t) s) k = none := by
  intro evs
  induction evs with
  | nil => intro s he; cases he
  | cons e0 evs ih =>
    intro s he
    rcases List.mem_cons.mp he with h0 | hm
    · subst h0
      exact foldl_handle_none_mono false evs _ _ (H s)
    · exact ih _ hm

theorem relay_fold_snd (down : Bool) (evs : List Event) :
    ∀ (db : EventTable) (s : Store),
      (evs.foldl (fun acc event =>
        (MarkEventAsProcessed event.ID acc.1, handleEvent down event acc.2)) (db, s)).2 =
      evs.foldl (fun t ev => handleEvent down ev t) s := by
  induction evs with
  | nil => exact fun _ _ => rfl
  | cons e0 evs ih =>
    intro db s
    exact ih (MarkEventAsProcessed e0.ID db) (handleEvent down e0 s)

/-- The store a relay cycle leaves behind is the fold of the fetched
events' handlers over the starting store. -/
theorem relay_store_eq (down : Bool) (db : EventTable) (s : Store) :
    (processUnprocessedEvents down db s).2 =
      (GetUnprocessedEvents 100 db).foldl (fun t ev => handleEvent down ev t) s := by
  unfold processUnprocessedEvents
  by_cases h : GetUnprocessedEvents 100 db = []
  · rw [h]
    rfl
  · rw [if_neg (by simp [h])]
    exact relay_fold_snd down _ db s

/-- C9: handling a change event on the `properties` table (with the
backend up) removes the `property:{id}` key, every key matching
`availability:{id}:*`, and every key matching `search:*` — and a whole
relay cycle that fetches such an event leaves all those keys absent,
so every one of them misses afterwards. -/
theorem property_event_invalidates_all_derived_keys
    (s : Store) (e : Event) (h : e.TableName = "properties") :
    ((handleEvent false e s) ("property:" ++ toString e.RecordID) = none ∧
     (∀ k, globMatchStr ("availability:" ++ toString e.RecordID ++ ":*") k = true →
       (handleEvent false e s) k = none) ∧
     (∀ k, globMatchStr "search:*" k = true → (handleEvent false e s) k = none)) ∧
    ∀ db : EventTable, e ∈ GetUnprocessedEvents 100 db →
      ((processUnprocessedEvents false db s).2 ("property:" ++ toString e.RecordID) = none ∧
       (∀ k, globMatchStr ("availability:" ++ toString e.RecordID ++ ":*") k = true →
         (processUnprocessedEvents false db s).2 k = none) ∧
       (∀ k, globMatchStr "search:*" k = true →
         (processUnprocessedEvents false db s).2 k = none)) := by
  have hall : ∀ t : Store,
      (handleEvent false e t) ("property:" ++ toString e.RecordID) = none ∧
      (∀ k, globMatchStr ("availability:" ++ toString e.RecordID ++ ":*") k = true →
        (handleEvent false e t) k = none) ∧
      (∀ k, globMatchStr "search:*" k = true → (handleEvent false e t) k = none) := by
    intro t
    have hh : handleEvent false e t =
        delPattern ("availability:" ++ toString e.RecordID ++ ":*")
          (delPattern "search:*"
            (delPattern ("search:city:" ++ "" ++ ":*")
              (delPattern ("search:location:" ++ "" ++ ":*")
                (delKey ("property:" ++ toString e.RecordID) t)))) := by
      simp only [handleEvent, h]
      rfl
    rw [hh]
    refine ⟨?_, ?_, ?_⟩
    · simp [delPattern, delKey]
    · intro k hk
      simp [delPattern, hk]
    · intro k hk
      simp [delPattern, hk]
  refine ⟨hall s, ?_⟩
  intro db hmem
  rw [relay_store_eq false db s]
  refine ⟨?_, ?_, ?_⟩
  · exact foldl_handle_hits e _ (fun t => (hall t).1) _ s hmem
  · intro k hk
    exact foldl_handle_hits e k (fun t => (hall t).2.1 k hk) _ s hmem
  · intro k hk
    exact foldl_handle_hits e k (fun t => (hall t).2.2 k hk) _ s hmem

def relayStore : Store :=
  setKey "search:deadbeef" (.searchResults expiredEntry)
    (setKey "availability:42:2024-01-01" .corrupt
      (setKey "property:42" (.property sampleProperty) Store.empty))

theorem property_event_invalidates_all_derived_keys_witness :
    (handleEvent false sampleEvent relayStore) "property:42" = none ∧
    (handleEvent false sampleEvent relayStore) "availability:42:2024-01-01" = none ∧
    (handleEvent false sampleEvent relayStore) "search:deadbeef" = none ∧
    (processUnprocessedEvents false [sampleEvent] relayStore).2 "property:42" = none :=
  ⟨(property_event_invalidates_all_derived_keys relayStore sampleEvent rfl).1.1,
   (property_event_invalidates_all_derived_keys relayStore sampleEvent rfl).1.2.1
     "availability:42:2024-01-01" (by decide),
   (property_event_invalidates_all_derived_keys relayStore sampleEvent rfl).1.2.2
     "search:deadbeef" (by decide),
   ((property_event_invalidates_all_derived_keys relayStore sampleEvent rfl).2
     [sampleEvent] (by decide)).1⟩

/-! ## C10 — pagination normalized before key and query -/

/-- Record extensionality for `SearchFilter` (field-by-field). -/
theorem searchFilter_ext {a b : SearchFilter}
    (h1 : a.Location = b.Location) (h2 : a.City = b.City)
    (h3 : a.CheckinDate = b.CheckinDate) (h4 : a.CheckoutDate = b.CheckoutDate)
    (h5 : a.NumberOfGuests = b.NumberOfGuests)
    (h6 : a.PetFriendly = b.PetFriendly) (h7 : a.SmokingFriendly = b.SmokingFriendly)
    (h8 : a.AmenityIDs = b.AmenityIDs) (h9 : a.ConditionIDs = b.ConditionIDs)
    (h10 : a.MinRating = b.MinRating) (h11 : a.MaxPrice = b.MaxPrice)
    (h12 : a.MinPrice = b.MinPrice) (h13 : a.Latitude = b.Latitude)
    (h14 : a.Longitude = b.Longitude) (h15 : a.RadiusKm = b.RadiusKm)
    (h16 : a.SortBy = b.SortBy) (h17 : a.Page = b.Page)
    (h18 : a.Limit = b.Limit) : a = b := by
  cases a
  cases b
  simp_all

/-- Closed form of the pagination validation. -/
theorem normalizePaging_eq (f : SearchFilter) :
    normalizePaging f = { f with
      Page := if f.Page < 1 then 1 else f.Page,
      Limit := if f.Limit < 1 ∨ f.Limit > 100 then 20 else f.Limit } := by
  cases f
  simp only [normalizePaging]
  split_ifs <;> simp_all

/-- C10: `SearchProperties` clamps `Page < 1` to 1 and out-of-range
`Limit` to 20 before the cache key is computed and before the store is
queried, so two requests that agree outside pagination and differ only
in out-of-range pagination values normalize to the same filter, the
same cache key, and the same handler behaviour. -/
theorem paging_normalized_before_key_and_query (f g : SearchFilter)
    (e1 : f.Location = g.Location) (e2 : f.City = g.City)
    (e3 : f.CheckinDate = g.CheckinDate) (e4 : f.CheckoutDate = g.CheckoutDate)
    (e5 : f.NumberOfGuests = g.NumberOfGuests)
    (e6 : f.PetFriendly = g.PetFriendly) (e7 : f.SmokingFriendly = g.SmokingFriendly)
    (e8 : f.AmenityIDs = g.AmenityIDs) (e9 : f.ConditionIDs = g.ConditionIDs)
    (e10 : f.MinRating = g.MinRating) (e11 : f.MaxPrice = g.MaxPrice)
    (e12 : f.MinPrice = g.MinPrice) (e13 : f.Latitude = g.Latitude)
    (e14 : f.Longitude = g.Longitude) (e15 : f.RadiusKm = g.RadiusKm)
    (e16 : f.SortBy = g.SortBy)
    (hpage : f.Page = g.Page ∨ (f.Page < 1 ∧ g.Page < 1))
    (hlimit : f.Limit = g.Limit ∨
      ((f.Limit < 1 ∨ f.Limit > 100) ∧ (g.Limit < 1 ∨ g.Limit > 100))) :
    (normalizePaging f).Page = (if f.Page < 1 then 1 else f.Page) ∧
    (normalizePaging f).Limit =
      (if f.Limit < 1 ∨ f.Limit > 100 then 20 else f.Limit) ∧
    normalizePaging f = normalizePaging g ∧
    generateSearchCacheKey (normalizePaging f) =
      generateSearchCacheKey (normalizePaging g) ∧
    ∀ (down : Bool) (s : Store) (now : Int) (store : DataStore),
      SearchProperties down s now store f = SearchProperties down s now store g := by
  have hnf := normalizePaging_eq f
  have hng := normalizePaging_eq g
  have hnorm : normalizePaging f = normalizePaging g := by
    rw [hnf, hng]
    apply searchFilter_ext
    · exact e1
    · exact e2
    · exact e3
    · exact e4
    · exact e5
    · exact e6
    · exact e7
    · exact e8
    · exact e9
    · exact e10
    · exact e11
    · exact e12
    · exact e13
    · exact e14
    · exact e15
    · exact e16
    · show (if f.Page < 1 then 1 else f.Page) = (if g.Page < 1 then 1 else g.Page)
      rcases hpage with h | ⟨ha, hb⟩
      · rw [h]
      · rw [if_pos ha, if_pos hb]
    · show (if f.Limit < 1 ∨ f.Limit > 100 then 20 else f.Limit) =
        (if g.Limit < 1 ∨ g.Limit > 100 then 20 else g.Limit)
      rcases hlimit with h | ⟨ha, hb⟩
      · rw [h]
      · rw [if_pos ha, if_pos hb]
  refine ⟨by rw [hnf], by rw [hnf], hnorm, congrArg generateSearchCacheKey hnorm, ?_⟩
  intro down s now store
  simp only [SearchProperties, hnorm]

def lowPagingFilter : SearchFilter := { emptyFilter with Page := 0, Limit := 0 }

def highPagingFilter : SearchFilter := { emptyFilter with Page := -5, Limit := 101 }

theorem paging_normalized_before_key_and_query_witness :
    normalizePaging lowPagingFilter = normalizePaging highPagingFilter ∧
    generateSearchCacheKey (normalizePaging lowPagingFilter) =
      generateSearchCacheKey (normalizePaging highPagingFilter) :=
  ⟨(paging_normalized_before_key_and_query lowPagingFilter highPagingFilter
      rfl rfl rfl rfl rfl rfl rfl rfl rfl rfl rfl rfl rfl rfl rfl rfl
      (Or.inr (by decide)) (Or.inr (by decide))).2.2.1,
   (paging_normalized_before_key_and_query lowPagingFilter highPagingFilter
      rfl rfl rfl rfl rfl rfl rfl rfl rfl rfl rfl rfl rfl rfl rfl rfl
      (Or.inr (by decide)) (Or.inr (by decide))).2.2.2.1⟩

/-! ## C7 — corrupt cached payloads -/

/-- A store whose `property:5` key holds bytes that do not unmarshal
into a `Property`. -/
def corruptStore : Store := setKey "property:5" .corrupt Store.empty

/-- A Data Store whose every query fails (with a non-not-found
error). -/
def failingDataStore : DataStore :=
  { search := fun _ => .error (),
    getPropertyByID := fun _ => .error .other,
    pricingForDateRange := fun _ _ _ => .error () }

/-- C7, as stated, is false on the code: a corrupt payload makes
`GetPropertyCache` return an error — not a miss value — and the corrupt
key is never deleted: after the whole request has fallen back to the
Data Store (here failing, so no repopulating overwrite occurs), the
key still holds the corrupt payload. -/
theorem corrupt_key_survives_read_with_store_failure :
    GetPropertyCache false corruptStore 5 = .error () ∧
    GetProperty false corruptStore failingDataStore 5 = (.serverError, corruptStore) ∧
    (GetProperty false corruptStore failingDataStore 5).2 "property:5" = some .corrupt := by
  exact ⟨rfl, rfl, rfl⟩

/-- C7 amended: a corrupt payload makes the cache get return an error;
the handler logs it, treats it like a miss and falls back to the Data
Store — but the get does not delete the corrupt key.  The key is only
replaced when the fallback succeeds and the repopulating set
overwrites it; if the fallback fails, the corrupt entry stays. -/
theorem corrupt_payload_error_fallback_no_delete
    (s : Store) (store : DataStore) (propertyID : Nat)
    (hs : s ("property:" ++ toString propertyID) = some .corrupt) :
    GetPropertyCache false s propertyID = .error () ∧
    (∀ p, store.getPropertyByID propertyID = .ok p →
      GetProperty false s store propertyID =
        (.okFresh p, setKey ("property:" ++ toString propertyID) (.property p) s)) ∧
    (store.getPropertyByID propertyID = .error .other →
      GetProperty false s store propertyID = (.serverError, s)) := by
  refine ⟨?_, ?_, ?_⟩
  · simp [GetPropertyCache, hs]
  · intro p hp
    simp [GetProperty, GetPropertyCache, hs, hp, SetPropertyCache, redisSet, orKeep]
  · intro hp
    simp [GetProperty, GetPropertyCache, hs, hp]

/-- A Data Store serving `sampleProperty` for every id and empty search
results. -/
def okDataStore : DataStore :=
  { search := fun _ => .ok ([], 0),
    getPropertyByID := fun _ => .ok sampleProperty,
    pricingForDateRange := fun _ _ _ => .ok [] }

theorem corrupt_payload_error_fallback_no_delete_witness :
    GetPropertyCache false corruptStore 5 = .error () ∧
    GetProperty false corruptStore okDataStore 5 =
      (.okFresh sampleProperty, setKey "property:5" (.property sampleProperty) corruptStore) :=
  ⟨(corrupt_payload_error_fallback_no_delete corruptStore okDataStore 5 (by decide)).1,
   (corrupt_payload_error_fallback_no_delete corruptStore okDataStore 5 (by decide)).2.1
     sampleProperty rfl⟩

/-! ## C8 — cache faults never fail a read -/

/-- C8: with the cache backend down (every cache get and set returning
an error), both read endpoints still serve the Data Store's answer:
the single-property endpoint returns the store's row and the search
endpoint returns the converted store results.  A cache fault alone
never produces an error response. -/
theorem cache_fault_never_fails_reads :
    (∀ (s : Store) (store : DataStore) (propertyID : Nat) (p : Property),
      store.getPropertyByID propertyID = .ok p →
      (GetProperty true s store propertyID).1 = .okFresh p) ∧
    (∀ (s : Store) (now : Int) (store : DataStore) (f : SearchFilter)
      (properties : List Property) (total : Int),
      store.search (normalizePaging f) = .ok (properties, total) →
      (SearchProperties true s now store f).1 =
        .okFresh (convertPropertiesToSearchResults store properties (normalizePaging f))
          total (normalizePaging f).Page (normalizePaging f).Limit) := by
  constructor
  · intro s store propertyID p hp
    simp [GetProperty, GetPropertyCache, hp, SetPropertyCache, redisSet, orKeep]
  · intro s now store f properties total hq
    simp [SearchProperties, GetSearchResultsCache, hq, SetSearchResultsCache,
      redisSet, orKeep]

theorem cache_fault_never_fails_reads_witness :
    (GetProperty true Store.empty okDataStore 5).1 = .okFresh sampleProperty ∧
    (SearchProperties true Store.empty 0 okDataStore emptyFilter).1 =
      .okFresh (convertPropertiesToSearchResults okDataStore [] (normalizePaging emptyFilter))
        0 (normalizePaging emptyFilter).Page (normalizePaging emptyFilter).Limit :=
  ⟨cache_fault_never_fails_reads.1 Store.empty okDataStore 5 sampleProperty rfl,
   cache_fault_never_fails_reads.2 Store.empty 0 okDataStore emptyFilter [] 0 rfl⟩

/-! ## C1 — processed marking vs invalidation outcome -/

/-- The accumulated effect of the relay's per-event
`MarkEventAsProcessed` calls on a single table row. -/
def markAll (evs : List Event) (x : Event) : Event :=
  evs.foldl (fun y e => if y.ID = e.ID then { y with Processed := true } else y) x

theorem markAll_cons (e : Event) (evs : List Event) (x : Event) :
    markAll (e :: evs) x =
      markAll evs (if x.ID = e.ID then { x with Processed := true } else x) := rfl

theorem markAll_id_eq (evs : List Event) (x : Event) :
    (markAll evs x).ID = x.ID := by
  induction evs generalizing x with
  | nil => rfl
  | cons e evs ih =>
    rw [markAll_cons, ih]
    split <;> rfl

theorem markAll_processed_mono (evs : List Event) (x : Event)
    (h : x.Processed = true) : (markAll evs x).Processed = true := by
  induction evs generalizing x with
  | nil => exact h
  | cons e evs ih =>
    rw [markAll_cons]
    refine ih _ ?_
    split
    · rfl
    · exact h

theorem markAll_hits (evs : List Event) (x e : Event)
    (he : e ∈ evs) (hid : x.ID = e.ID) : (markAll evs x).Processed = true := by
  induction evs generalizing x with
  | nil => cases he
  | cons e0 evs ih =>
    rw [markAll_cons]
    rcases List.mem_cons.mp he with h | h
    · subst h
      rw [if_pos hid]
      exact markAll_processed_mono evs _ rfl
    · refine ih _ h ?_
      split <;> exact hid

theorem foldl_mark_eq_map (evs : List Event) (db : EventTable) :
    evs.foldl (fun d e => MarkEventAsProcessed e.ID d) db = db.map (markAll evs) := by
  induction evs generalizing db with
  | nil =>
    rw [show markAll [] = id from rfl, List.map_id]
    rfl
  | cons e evs ih =>
    rw [List.foldl_cons, ih, MarkEventAsProcessed, List.map_map]
    rfl

theorem relay_fold_fst (down : Bool) (evs : List Event) (db : EventTable) (s : Store) :
    (evs.foldl (fun acc event =>
      (MarkEventAsProcessed event.ID acc.1, handleEvent down event acc.2)) (db, s)).1 =
      evs.foldl (fun d e => MarkEventAsProcessed e.ID d) db := by
  induction evs generalizing db s with
  | nil => rfl
  | cons e evs ih => exact ih (MarkEventAsProcessed e.ID db) (handleEvent down e s)

theorem relay_events_fst (down : Bool) (db : EventTable) (s : Store) :
    (processUnprocessedEvents down db s).1 =
      db.map (markAll (GetUnprocessedEvents 100 db)) := by
  unfold processUnprocessedEvents
  by_cases h : GetUnprocessedEvents 100 db = []
  · rw [h]
    rw [show markAll [] = id from rfl, List.map_id]
    rfl
  · rw [if_neg (by simp [h])]
    rw [relay_fold_fst, foldl_mark_eq_map]

/-- C1 as stated is false on the code: with the cache backend down,
every invalidation implied by the fetched event fails (the store comes
back untouched — `property:42` is still cached), yet the relay still
marks the event processed, because `processUnprocessedEvents` calls
`MarkEventAsProcessed` unconditionally after the handler, which
swallows all invalidation errors. -/
theorem event_marked_processed_despite_failed_invalidation :
    (processUnprocessedEvents true [sampleEvent] relayStore).1 =
      [{ sampleEvent with Processed := true }] ∧
    (processUnprocessedEvents true [sampleEvent] relayStore).2 = relayStore ∧
    relayStore "property:42" = some (.property sampleProperty) :=
  ⟨rfl, rfl, rfl⟩

/-- C1 amended: one relay cycle marks every fetched event processed
regardless of whether its invalidation succeeded (`down` arbitrary) —
failed invalidations are logged, not retried; what does survive from
the claim is monotonicity: rows keep their ids, and a row already
processed never reverts. -/
theorem relay_marks_fetched_events_processed_and_monotone
    (down : Bool) (db : EventTable) (s : Store) :
    List.Forall₂ (fun e e' => e'.ID = e.ID ∧ (e.Processed = true → e'.Processed = true))
      db (processUnprocessedEvents down db s).1 ∧
    ∀ e ∈ GetUnprocessedEvents 100 db,
      ∀ e' ∈ (processUnprocessedEvents down db s).1,
        e'.ID = e.ID → e'.Processed = true := by
  have hfst := relay_events_fst down db s
  constructor
  · rw [hfst, List.forall₂_map_right_iff, List.forall₂_same]
    intro x _
    exact ⟨markAll_id_eq _ _, markAll_processed_mono _ _⟩
  · intro e he e' he' hid
    rw [hfst] at he'
    rcases List.mem_map.mp he' with ⟨x, _, rfl⟩
    refine markAll_hits _ _ _ he ?_
    rw [← markAll_id_eq (GetUnprocessedEvents 100 db) x]
    exact hid

theorem relay_marks_fetched_events_processed_and_monotone_witness :
    ({ sampleEvent with Processed := true } : Event).Processed = true :=
  (relay_marks_fetched_events_processed_and_monotone true [sampleEvent] relayStore).2
    sampleEvent (by decide) { sampleEvent with Processed := true } (by decide) (by decide)

/-! ## C3 — cache-key determinism over logical filter content -/

set_option maxRecDepth 40000

/-- The logical content of a Go `*bool`: just the pointee. -/
def ptrBoolContent : Option (Nat × Bool) → Option Bool := Option.map Prod.snd

/-- Two heap placements of the same request: `pet_friendly = true`,
with the boxed bool allocated at two different addresses (fresh
allocation happens on every request's JSON unmarshal, and across
process restarts). -/
def petFilterA : SearchFilter :=
  { emptyFilter with PetFriendly := some (0xc0000140a0, true) }

def petFilterB : SearchFilter :=
  { emptyFilter with PetFriendly := some (0xc0000141b0, true) }

/-- C3 is violated by the code: `generateSearchCacheKey` formats the
`*bool` filter fields with `%t`, which renders the pointer (producing
`%!t(*bool=0x...)` with the heap address) rather than the pointee, so
two filters of identical logical content — equal in every field, with
`PetFriendly` pointing to `true` in both — serialize differently and
digest to different keys.  The key is therefore not a function of the
filter's logical content. -/
theorem same_logical_filter_different_cache_key :
    (ptrBoolContent petFilterA.PetFriendly = ptrBoolContent petFilterB.PetFriendly ∧
     petFilterA.SmokingFriendly = petFilterB.SmokingFriendly ∧
     petFilterA.Location = petFilterB.Location ∧
     petFilterA.City = petFilterB.City ∧
     petFilterA.CheckinDate = petFilterB.CheckinDate ∧
     petFilterA.CheckoutDate = petFilterB.CheckoutDate ∧
     petFilterA.NumberOfGuests = petFilterB.NumberOfGuests ∧
     petFilterA.AmenityIDs = petFilterB.AmenityIDs ∧
     petFilterA.ConditionIDs = petFilterB.ConditionIDs ∧
     petFilterA.MinRating = petFilterB.MinRating ∧
     petFilterA.MaxPrice = petFilterB.MaxPrice ∧
     petFilterA.MinPrice = petFilterB.MinPrice ∧
     petFilterA.Latitude = petFilterB.Latitude ∧
     petFilterA.Longitude = petFilterB.Longitude ∧
     petFilterA.RadiusKm = petFilterB.RadiusKm ∧
     petFilterA.SortBy = petFilterB.SortBy ∧
     petFilterA.Page = petFilterB.Page ∧
     petFilterA.Limit = petFilterB.Limit) ∧
    searchHashInput petFilterA ≠ searchHashInput petFilterB ∧
    generateSearchCacheKey petFilterA ≠ generateSearchCacheKey petFilterB := by
  refine ⟨by decide, by decide, by decide⟩

/-! ## C4 — id-set order and the cache key -/

def amenFilterA : SearchFilter := { emptyFilter with AmenityIDs := [1, 2] }

def amenFilterB : SearchFilter := { emptyFilter with AmenityIDs := [2, 1] }

/-- C4, as stated, is false on the code: `generateSearchCacheKey` does
not sort the id sets before digesting — `%v` renders them in the order
given — so `AmenityIDs [1,2]` and `[2,1]` serialize differently and
produce different cache keys. -/
theorem amenity_order_changes_cache_key :
    searchHashInput amenFilterA ≠ searchHashInput amenFilterB ∧
    generateSearchCacheKey amenFilterA ≠ generateSearchCacheKey amenFilterB := by
  refine ⟨by decide, by decide⟩

/-- Left cancellation for string append. -/
theorem strAppend_cancel_left (s : String) {t1 t2 : String}
    (h : s ++ t1 = s ++ t2) : t1 = t2 := by
  obtain ⟨sd⟩ := s
  obtain ⟨a⟩ := t1
  obtain ⟨b⟩ := t2
  have hd := congrArg String.data h
  exact congrArg String.mk (List.append_cancel_left hd)

/-- Right cancellation for string append. -/
theorem strAppend_cancel_right (s : String) {t1 t2 : String}
    (h : t1 ++ s = t2 ++ s) : t1 = t2 := by
  obtain ⟨sd⟩ := s
  obtain ⟨a⟩ := t1
  obtain ⟨b⟩ := t2
  have hd := congrArg String.data h
  exact congrArg String.mk (List.append_cancel_right hd)

/-- C4 amended: the id sets are digested in the order the request gave
them — no sorting happens — so two filters that agree everywhere else
but whose amenity-id (resp. condition-id) lists render differently
produce different serialized digest inputs (and, at the `[1,2]` /
`[2,1]` instance, different cache keys — see the counterexample). -/
theorem unsorted_id_order_changes_digest_input
    (f : SearchFilter) (l1 l2 : List Int)
    (h : goFmtVInt64List l1 ≠ goFmtVInt64List l2) :
    searchHashInput { f with AmenityIDs := l1 } ≠
      searchHashInput { f with AmenityIDs := l2 } ∧
    searchHashInput { f with ConditionIDs := l1 } ≠
      searchHashInput { f with ConditionIDs := l2 } := by
  obtain ⟨fL, fC, fci, fco, fn, fp, fs, fa, fcond, fmr, fmx, fmn, flat,
    flon, fr, fsb, fpg, flim⟩ := f
  constructor
  · intro hEq
    apply h
    simp only [searchHashInput] at hEq
    iterate 14 replace hEq := strAppend_cancel_left _ hEq
    exact strAppend_cancel_right _ hEq
  · intro hEq
    apply h
    simp only [searchHashInput] at hEq
    iterate 16 replace hEq := strAppend_cancel_left _ hEq
    exact strAppend_cancel_right _ hEq

theorem unsorted_id_order_changes_digest_input_witness :
    searchHashInput { emptyFilter with ConditionIDs := [3, 4] } ≠
      searchHashInput { emptyFilter with ConditionIDs := [4, 3] } :=
  (unsorted_id_order_changes_digest_input emptyFilter [3, 4] [4, 3] (by decide)).2

end ChannelManager
